import Mathlib

/-!
Verification of the socket.io wire-protocol codec (`protocol/socketio.go`):
a shallow embedding of the encoder, the decoder and its three parsing
helpers, together with theorems settling the specification's claims.
Go strings are embedded as `List Char`; fallible Go functions returning
`(value, error)` pairs become `Except`-valued functions; the one place the
decoder can index a slice out of range is made explicit in `DecodeResult`.
-/

namespace Protocol

/-- Character-list strings, the embedding of Go strings. -/
abbrev Str := List Char

/-- Modelled from the spec: the symbolic kind constant for Open.  The
`MessageType*` constants are declared outside the provided source file;
only their distinctness is relied upon, so they are numbered 0..7 in the
order the spec lists the eight kinds. -/
def MessageTypeOpen : Int := 0

/-- Modelled from the spec: the symbolic kind constant for Close. -/
def MessageTypeClose : Int := 1

/-- Modelled from the spec: the symbolic kind constant for Ping. -/
def MessageTypePing : Int := 2

/-- Modelled from the spec: the symbolic kind constant for Pong. -/
def MessageTypePong : Int := 3

/-- Modelled from the spec: the symbolic kind constant for Empty. -/
def MessageTypeEmpty : Int := 4

/-- Modelled from the spec: the symbolic kind constant for Emit. -/
def MessageTypeEmit : Int := 5

/-- Modelled from the spec: the symbolic kind constant for AckRequest. -/
def MessageTypeAckRequest : Int := 6

/-- Modelled from the spec: the symbolic kind constant for AckResponse. -/
def MessageTypeAckResponse : Int := 7

/-- Modelled from the spec: the Message entity (the struct declaration
lives outside the provided source file; these are exactly the fields the
codec reads and writes).  `Type'` stands for the Go field `Type`. -/
structure Message where
  Type' : Int
  Namespace : Str
  AckId : Int
  Method : Str
  Args : Str
  Source : Str
  deriving DecidableEq

/-- The two named protocol errors plus the error produced by
`strconv.Atoi` on the ack-id digits, which the code surfaces as-is. -/
inductive Err where
  | WrongMessageType
  | WrongPacket
  | AtoiError
  deriving DecidableEq

/-- Outcome of `Decode`: a message, an error, or a Go runtime panic
(an out-of-range string slice). -/
inductive DecodeResult where
  | ok (m : Message)
  | err (e : Err)
  | panicked
  deriving DecidableEq

/-- Embedding of `typeToText`: kind constant to wire prefix. -/
def typeToText (t : Int) : Except Err Str :=
  if t = MessageTypeOpen then .ok ['0']
  else if t = MessageTypeClose then .ok ['1']
  else if t = MessageTypePing then .ok ['2']
  else if t = MessageTypePong then .ok ['3']
  else if t = MessageTypeEmpty then .ok ['4', '0']
  else if t = MessageTypeEmit ∨ t = MessageTypeAckRequest then .ok ['4', '2']
  else if t = MessageTypeAckResponse then .ok ['4', '3']
  else .error .WrongMessageType

/-- Decimal digit character for a digit value below ten. -/
def digitChar (d : Nat) : Char :=
  match d with
  | 0 => '0'
  | 1 => '1'
  | 2 => '2'
  | 3 => '3'
  | 4 => '4'
  | 5 => '5'
  | 6 => '6'
  | 7 => '7'
  | 8 => '8'
  | _ => '9'

/-- Decimal digit characters of a natural number, most significant first. -/
def natDigits (n : Nat) : Str :=
  if n = 0 then ['0'] else ((Nat.digits 10 n).map digitChar).reverse

/-- Embedding of `strconv.Itoa`: decimal representation of an integer. -/
def Itoa (a : Int) : Str :=
  if a < 0 then '-' :: natDigits (-a).toNat else natDigits a.toNat

/-- Numeric value of a digit character. -/
def digitVal (c : Char) : Nat := c.toNat - 48

/-- Value of a most-significant-first digit string. -/
def digitsToNat (s : Str) : Nat := s.foldl (fun a c => 10 * a + digitVal c) 0

/-- Embedding of `strconv.Atoi`: an optional sign followed by at least one
decimal digit; anything else is a parse error (surfaced by the decoder
as-is, modelled as `Err.AtoiError`). -/
def Atoi (s : Str) : Except Err Int :=
  match s with
  | [] => .error .AtoiError
  | c :: rest =>
    if c = '-' then
      if rest ≠ [] ∧ rest.all Char.isDigit then .ok (-(digitsToNat rest : Int))
      else .error .AtoiError
    else if c = '+' then
      if rest ≠ [] ∧ rest.all Char.isDigit then .ok (digitsToNat rest : Int)
      else .error .AtoiError
    else
      if (c :: rest).all Char.isDigit then .ok (digitsToNat (c :: rest) : Int)
      else .error .AtoiError

/-- Modelled from the spec: Go's `encoding/json.Marshal` applied to the
method-name string.  Only method names whose characters the marshaller
emits verbatim (`jsonSafe` below) are modelled; escaping of other
characters is outside the modelled domain, and marshalling a string never
fails. -/
def jsonMarshalString (s : Str) : Str := '"' :: (s ++ ['"'])

/-- Characters that `encoding/json.Marshal` writes into a JSON string
literal unchanged: not a quote, backslash or control character, not one of
the HTML-escaped characters, and not U+2028/U+2029. -/
def jsonSafe (c : Char) : Bool :=
  c ≠ '"' && c ≠ '\\' && c ≠ '<' && c ≠ '>' && c ≠ '&' &&
    32 ≤ c.toNat && c.toNat ≠ 8232 && c.toNat ≠ 8233

/-- Append a comma when a field-separator comma is owed. -/
def commaIf (b : Bool) (s : Str) : Str := if b then s ++ [','] else s

/-- Embedding of `Encode`.  Mirrors the Go function's sequential build of
`result` and its `comma` flag; the Go convention `("", err)` on failure is
kept as the pair `([], some e)`. -/
def Encode (m : Message) : Str × Option Err :=
  match typeToText m.Type' with
  | .error e => ([], some e)
  | .ok pre =>
    let result0 := pre ++ m.Namespace
    let comma0 := !m.Namespace.isEmpty
    if m.Type' = MessageTypeEmpty ∨ m.Type' = MessageTypePing ∨ m.Type' = MessageTypePong then
      (result0, none)
    else
      let result1 :=
        if m.Type' = MessageTypeAckRequest ∨ m.Type' = MessageTypeAckResponse then
          commaIf comma0 result0 ++ Itoa m.AckId
        else result0
      let comma1 :=
        if m.Type' = MessageTypeAckRequest ∨ m.Type' = MessageTypeAckResponse then false
        else comma0
      if m.Type' = MessageTypeOpen ∨ m.Type' = MessageTypeClose then
        (commaIf comma1 result1 ++ m.Args, none)
      else if m.Type' = MessageTypeAckResponse then
        (commaIf comma1 result1 ++ '[' :: (m.Args ++ [']']), none)
      else
        (commaIf comma1 result1 ++ '[' :: (jsonMarshalString m.Method ++ ',' :: (m.Args ++ [']'])), none)

/-- Embedding of `strings.IndexByte`: index of the first occurrence of a
character, `none` when absent (Go's `-1`). -/
def indexByte : Str → Char → Option Nat
  | [], _ => none
  | c :: rest, target =>
    if c = target then some 0 else (indexByte rest target).map (· + 1)

/-- Embedding of `getMessageType`: classify the one- or two-character
prefix, returning the kind and the remaining text. -/
def getMessageType (data : Str) : Except Err (Int × Str) :=
  match data with
  | [] => .error .WrongMessageType
  | c :: rest =>
    if c = '0' then .ok (MessageTypeOpen, rest)
    else if c = '1' then .ok (MessageTypeClose, rest)
    else if c = '2' then .ok (MessageTypePing, rest)
    else if c = '3' then .ok (MessageTypePong, rest)
    else if c = '4' then
      match rest with
      | [] => .error .WrongMessageType
      | c2 :: rest2 =>
        if c2 = '0' then .ok (MessageTypeEmpty, rest2)
        else if c2 = '2' then .ok (MessageTypeAckRequest, rest2)
        else if c2 = '3' then .ok (MessageTypeAckResponse, rest2)
        else .error .WrongMessageType
    else .error .WrongMessageType

/-- Embedding of `getNamespace`: when the text starts with `/`, the
namespace runs to the first comma (or to the end); otherwise the
namespace is empty and the text is unchanged. -/
def getNamespace (text : Str) : Str × Str :=
  match text with
  | [] => ([], [])
  | c :: _ =>
    if c = '/' then
      match indexByte text ',' with
      | none => (text, [])
      | some pos => (text.take pos, text.drop (pos + 1))
    else ([], text)

/-- Embedding of `getAck`: the text before the first `[` must parse with
`Atoi`; the text from `[` onward is the new remaining text. -/
def getAck (text : Str) : Except Err (Int × Str) :=
  if text.isEmpty then .error .WrongPacket
  else
    match indexByte text '[' with
    | none => .error .WrongPacket
    | some pos =>
      match Atoi (text.take pos) with
      | .error e => .error e
      | .ok a => .ok (a, text.drop pos)

/-- Loop state of `getMethod`: Go's `start`, `end` (here `stop`), `rest`
and `countQuote` counters. -/
structure GM where
  start : Nat
  stop : Nat
  rest : Nat
  countQuote : Nat
  deriving DecidableEq

/-- The character scan of `getMethod`: `none` is the in-loop third-quote
failure, `some st` the state on loop exit (break or end of text). -/
def gmLoop : Str → Nat → GM → Option GM
  | [], _, st => some st
  | c :: cs, i, st =>
    if c = '"' then
      if st.countQuote = 0 then gmLoop cs (i + 1) ⟨i + 1, st.stop, st.rest, 1⟩
      else if st.countQuote = 1 then gmLoop cs (i + 1) ⟨st.start, i, i + 1, 2⟩
      else none
    else if c = ',' then
      if st.countQuote < 2 then gmLoop cs (i + 1) st
      else some ⟨st.start, st.stop, i + 1, st.countQuote⟩
    else gmLoop cs (i + 1) st

/-- Embedding of `getMethod`: run the scan, then apply the final
`end < start || rest >= len(text)` check and slice out method and args. -/
def getMethod (text : Str) : Except Err (Str × Str) :=
  match gmLoop text 0 ⟨0, 0, 0, 0⟩ with
  | none => .error .WrongPacket
  | some st =>
    if st.stop < st.start ∨ text.length ≤ st.rest then .error .WrongPacket
    else .ok ((text.drop st.start).take (st.stop - st.start), (text.drop st.rest).dropLast)

/-- Embedding of `Decode`.  The `AckResponse` slice `rest[1:len(rest)-1]`
is in range only when the remaining text has at least two characters;
otherwise the Go code panics, reported as `.panicked`. -/
def Decode (data : Str) : DecodeResult :=
  match getMessageType data with
  | .error e => .err e
  | .ok tr =>
    let t := tr.1
    let p := getNamespace tr.2
    if t = MessageTypeOpen then
      .ok ⟨t, p.1, 0, [], p.2, data⟩
    else if t = MessageTypeClose ∨ t = MessageTypePing ∨ t = MessageTypePong ∨ t = MessageTypeEmpty then
      .ok ⟨t, p.1, 0, [], [], data⟩
    else
      match getAck p.2 with
      | .ok ar =>
        if t = MessageTypeAckResponse then
          if 2 ≤ ar.2.length then
            .ok ⟨t, p.1, ar.1, [], (ar.2.drop 1).dropLast, data⟩
          else .panicked
        else
          match getMethod ar.2 with
          | .error e => .err e
          | .ok ma => .ok ⟨t, p.1, ar.1, ma.1, ma.2, data⟩
      | .error e =>
        if t = MessageTypeAckResponse then .err e
        else
          match getMethod (data.drop 2) with
          | .error e2 => .err e2
          | .ok ma => .ok ⟨MessageTypeEmit, p.1, 0, ma.1, ma.2, data⟩

/-! ### Digit and `Atoi`/`Itoa` lemmas -/

theorem digitVal_digitChar {d : Nat} (h : d < 10) : digitVal (digitChar d) = d := by
  interval_cases d <;> decide

theorem digitChar_isDigit {d : Nat} (h : d < 10) : (digitChar d).isDigit = true := by
  interval_cases d <;> decide

theorem natDigits_all_digit (n : Nat) : (natDigits n).all Char.isDigit = true := by
  unfold natDigits
  split
  · decide
  · rw [List.all_eq_true]
    intro c hc
    rw [List.mem_reverse, List.mem_map] at hc
    obtain ⟨d, hd, rfl⟩ := hc
    exact digitChar_isDigit (Nat.digits_lt_base (by norm_num) hd)

theorem natDigits_ne_nil (n : Nat) : natDigits n ≠ [] := by
  unfold natDigits
  split
  · simp
  · simp [Nat.digits_ne_nil_iff_ne_zero, *]

theorem foldr_digitChar (L : List Nat) (hL : ∀ d ∈ L, d < 10) :
    (L.map digitChar).foldr (fun c a => 10 * a + digitVal c) 0 = Nat.ofDigits 10 L := by
  induction L with
  | nil => simp [Nat.ofDigits]
  | cons d L ih =>
    have hd : d < 10 := hL d (List.mem_cons_self d L)
    have ih' := ih (fun x hx => hL x (List.mem_cons_of_mem d hx))
    simp only [List.map_cons, List.foldr_cons, ih', Nat.ofDigits_cons,
      digitVal_digitChar hd]
    ring

theorem digitsToNat_natDigits (n : Nat) : digitsToNat (natDigits n) = n := by
  unfold natDigits
  split
  · simp_all [digitsToNat, digitVal]
  · unfold digitsToNat
    rw [List.foldl_reverse]
    rw [foldr_digitChar (Nat.digits 10 n) (fun d hd => Nat.digits_lt_base (by norm_num) hd)]
    exact Nat.ofDigits_digits 10 n

theorem isDigit_ne_of (c : Char) (h : c.isDigit = true) :
    c ≠ '[' ∧ c ≠ '/' ∧ c ≠ ',' ∧ c ≠ '"' ∧ c ≠ '-' ∧ c ≠ '+' := by
  refine ⟨?_, ?_, ?_, ?_, ?_, ?_⟩ <;> (rintro rfl; exact absurd h (by decide))

theorem Atoi_of_digits (s : Str) (hne : s ≠ []) (hall : s.all Char.isDigit = true) :
    Atoi s = .ok (digitsToNat s : Int) := by
  match s with
  | [] => exact absurd rfl hne
  | c :: rest =>
    have hc : c.isDigit = true := by
      rw [List.all_eq_true] at hall
      exact hall c (List.mem_cons_self c rest)
    obtain ⟨_, _, _, _, h5, h6⟩ := isDigit_ne_of c hc
    simp only [Atoi]
    rw [if_neg h5, if_neg h6, if_pos hall]

theorem Atoi_Itoa (a : Int) : Atoi (Itoa a) = .ok a := by
  unfold Itoa
  split
  · next hlt =>
    have hne := natDigits_ne_nil (-a).toNat
    have hall := natDigits_all_digit (-a).toNat
    simp only [Atoi]
    rw [if_pos trivial, if_pos ⟨hne, hall⟩]
    have : ((-a).toNat : Int) = -a := Int.toNat_of_nonneg (by omega)
    rw [digitsToNat_natDigits]
    rw [this]
    simp
  · next hge =>
    rw [Atoi_of_digits _ (natDigits_ne_nil a.toNat) (natDigits_all_digit a.toNat)]
    rw [digitsToNat_natDigits]
    rw [Int.toNat_of_nonneg (by omega)]

theorem Itoa_not_mem (a : Int) (c : Char) (hc : c.isDigit = false) (hm : c ≠ '-') :
    c ∉ Itoa a := by
  intro hmem
  unfold Itoa at hmem
  have hdig : ∀ n : Nat, c ∈ natDigits n → False := by
    intro n hn
    have := (List.all_eq_true).1 (natDigits_all_digit n) c hn
    rw [hc] at this
    exact Bool.noConfusion this
  split at hmem
  · rcases List.mem_cons.1 hmem with h | h
    · exact hm h
    · exact hdig _ h
  · exact hdig _ hmem

theorem Itoa_head_not_slash (a : Int) (r : Str) : (Itoa a ++ r).head? ≠ some '/' := by
  intro h
  unfold Itoa at h
  have hdig : ∀ n : Nat, (natDigits n ++ r).head? = some '/' → False := by
    intro n hn
    rw [List.head?_append_of_ne_nil _ (natDigits_ne_nil n)] at hn
    match hh : natDigits n, natDigits_ne_nil n with
    | c :: t, _ =>
      rw [hh] at hn
      simp only [List.head?_cons, Option.some.injEq] at hn
      have := (List.all_eq_true).1 (natDigits_all_digit n) c (hh ▸ List.mem_cons_self c t)
      rw [hn] at this
      exact absurd this (by decide)
  split at h
  · simp only [List.cons_append, List.head?_cons, Option.some.injEq] at h
    exact absurd h (by decide)
  · exact hdig _ h

/-! ### `indexByte`, `getNamespace` and `getAck` lemmas -/

theorem indexByte_not_mem {s : Str} {c : Char} (h : c ∉ s) : indexByte s c = none := by
  induction s with
  | nil => rfl
  | cons a t ih =>
    have ha : a ≠ c := fun hac => h (hac ▸ List.mem_cons_self a t)
    have ht : c ∉ t := fun hm => h (List.mem_cons_of_mem a hm)
    simp [indexByte, ha, ih ht]

theorem indexByte_append {s : Str} {c : Char} (h : c ∉ s) (t : Str) :
    indexByte (s ++ t) c = (indexByte t c).map (· + s.length) := by
  induction s with
  | nil =>
    simp only [List.nil_append, List.length_nil]
    cases indexByte t c <;> simp
  | cons a s ih =>
    have ha : a ≠ c := fun hac => h (hac ▸ List.mem_cons_self a s)
    have hs : c ∉ s := fun hm => h (List.mem_cons_of_mem a hm)
    simp only [List.cons_append, indexByte, List.append_eq, if_neg ha, ih hs, List.length_cons]
    cases indexByte t c with
    | none => rfl
    | some v => simp [Nat.add_assoc]

theorem indexByte_cons_self (c : Char) (t : Str) : indexByte (c :: t) c = some 0 := by
  simp [indexByte]

theorem getNamespace_no_slash {s : Str} (h : s.head? ≠ some '/') :
    getNamespace s = ([], s) := by
  match s with
  | [] => rfl
  | c :: t =>
    have hc : c ≠ '/' := fun hc => h (by simp [hc])
    simp [getNamespace, hc]

theorem getNamespace_sep {ns : Str} (r : Str) (h1 : ns.head? = some '/') (h2 : ',' ∉ ns) :
    getNamespace (ns ++ ',' :: r) = (ns, r) := by
  match ns, h1 with
  | c :: t, h1 =>
    have hc : c = '/' := by simpa using h1
    have hidx : indexByte (c :: (t ++ ',' :: r)) ',' = some (c :: t).length := by
      rw [show c :: (t ++ ',' :: r) = (c :: t) ++ ',' :: r from rfl]
      rw [indexByte_append h2]
      simp [indexByte_cons_self]
    simp only [List.cons_append, getNamespace, hidx, if_pos hc]
    refine Prod.ext ?_ ?_
    · show List.take (c :: t).length (c :: (t ++ ',' :: r)) = c :: t
      rw [show c :: (t ++ ',' :: r) = (c :: t) ++ ',' :: r from rfl, List.take_left]
    · show List.drop ((c :: t).length + 1) (c :: (t ++ ',' :: r)) = r
      rw [show c :: (t ++ ',' :: r) = ((c :: t) ++ [',']) ++ r by simp]
      exact List.drop_left' (by simp)

theorem getNamespace_no_comma {ns : Str} (h1 : ns.head? = some '/') (h2 : ',' ∉ ns) :
    getNamespace ns = (ns, []) := by
  match ns, h1 with
  | c :: t, h1 =>
    have hc : c = '/' := by simpa using h1
    have hidx : indexByte (c :: t) ',' = none := indexByte_not_mem h2
    simp only [getNamespace, hidx, if_pos hc]

theorem getAck_itoa (a : Int) (x : Str) :
    getAck (Itoa a ++ '[' :: x) = .ok (a, '[' :: x) := by
  have hlb : '[' ∉ Itoa a := Itoa_not_mem a '[' (by decide) (by decide)
  have hne : Itoa a ≠ [] := by
    unfold Itoa
    split
    · simp
    · exact natDigits_ne_nil _
  have hidx : indexByte (Itoa a ++ '[' :: x) '[' = some (Itoa a).length := by
    rw [indexByte_append hlb, indexByte_cons_self]
    simp
  have hemp : (Itoa a ++ '[' :: x).isEmpty = false := by
    match h : Itoa a, hne with
    | c :: t, _ => rfl
  unfold getAck
  rw [hemp]
  simp only [Bool.false_eq_true, if_false, hidx]
  rw [List.take_left, List.drop_left, Atoi_Itoa]

theorem getAck_lbrack (x : Str) : getAck ('[' :: x) = .error .AtoiError := by
  unfold getAck
  rw [show ('[' :: x).isEmpty = false from rfl]
  simp only [Bool.false_eq_true, if_false, indexByte_cons_self]
  rfl

theorem Atoi_error_eq {s : Str} {e : Err} (h : Atoi s = .error e) : e = .AtoiError := by
  unfold Atoi at h
  match s with
  | [] => exact (Except.error.injEq _ _ ▸ h).symm
  | c :: rest =>
    simp only at h
    split_ifs at h <;> simp_all

theorem getAck_error_ne_wmt {s : Str} {e : Err} (h : getAck s = .error e) :
    e ≠ .WrongMessageType := by
  intro hc
  subst hc
  unfold getAck at h
  split_ifs at h
  · simp at h
  · split at h
    · simp at h
    · split at h
      · rename_i e' hA
        have hA' := Atoi_error_eq hA
        simp at h
        simp_all
      · simp at h

theorem getMethod_error_eq {s : Str} {e : Err} (h : getMethod s = .error e) :
    e = .WrongPacket := by
  unfold getMethod at h
  split at h
  · injection h with h'
    exact h'.symm
  · split at h
    · injection h with h'
      exact h'.symm
    · exact Except.noConfusion h

/-! ### `gmLoop` and `getMethod` lemmas -/

theorem gmLoop_skip_lt2 (s : Str) (hq : '"' ∉ s) :
    ∀ (t : Str) (i : Nat) (st : GM), st.countQuote < 2 →
      gmLoop (s ++ t) i st = gmLoop t (i + s.length) st := by
  induction s with
  | nil =>
    intro t i st _
    simp
  | cons c cs ih =>
    intro t i st hc2
    have hcq : c ≠ '"' := fun h => hq (h ▸ List.mem_cons_self c cs)
    have hcs : '"' ∉ cs := fun h => hq (List.mem_cons_of_mem c h)
    simp only [List.cons_append, gmLoop, List.append_eq, if_neg hcq, List.length_cons]
    by_cases hcc : c = ','
    · rw [if_pos hcc, if_pos hc2, ih hcs t (i + 1) st hc2]
      rw [show i + 1 + cs.length = i + (cs.length + 1) by omega]
    · rw [if_neg hcc, ih hcs t (i + 1) st hc2]
      rw [show i + 1 + cs.length = i + (cs.length + 1) by omega]

theorem gmLoop_skip_nc (s : Str) (hq : '"' ∉ s) (hcm : ',' ∉ s) :
    ∀ (t : Str) (i : Nat) (st : GM),
      gmLoop (s ++ t) i st = gmLoop t (i + s.length) st := by
  induction s with
  | nil =>
    intro t i st
    simp
  | cons c cs ih =>
    intro t i st
    have hcq : c ≠ '"' := fun h => hq (h ▸ List.mem_cons_self c cs)
    have hcc : c ≠ ',' := fun h => hcm (h ▸ List.mem_cons_self c cs)
    have hcs : '"' ∉ cs := fun h => hq (List.mem_cons_of_mem c h)
    have hcs' : ',' ∉ cs := fun h => hcm (List.mem_cons_of_mem c h)
    simp only [List.cons_append, gmLoop, List.append_eq, if_neg hcq, if_neg hcc, List.length_cons]
    rw [ih hcs hcs' t (i + 1) st]
    rw [show i + 1 + cs.length = i + (cs.length + 1) by omega]

theorem gmLoop_quote_zero (cs : Str) (i b c r : Nat) :
    gmLoop ('"' :: cs) i ⟨b, c, r, 0⟩ = gmLoop cs (i + 1) ⟨i + 1, c, r, 1⟩ := by
  simp [gmLoop]

theorem gmLoop_quote_one (cs : Str) (i b c r : Nat) :
    gmLoop ('"' :: cs) i ⟨b, c, r, 1⟩ = gmLoop cs (i + 1) ⟨b, i, i + 1, 2⟩ := by
  simp [gmLoop]

theorem gmLoop_quote_two (cs : Str) (i b c r : Nat) :
    gmLoop ('"' :: cs) i ⟨b, c, r, 2⟩ = none := by
  simp [gmLoop]

theorem gmLoop_comma_two (cs : Str) (i b c r : Nat) :
    gmLoop (',' :: cs) i ⟨b, c, r, 2⟩ = some ⟨b, c, i + 1, 2⟩ := by
  simp [gmLoop]

theorem gmLoop_other (c : Char) (cs : Str) (i : Nat) (st : GM)
    (h1 : c ≠ '"') (h2 : c ≠ ',') :
    gmLoop (c :: cs) i st = gmLoop cs (i + 1) st := by
  simp [gmLoop, h1, h2]

theorem gmLoop_nil (i : Nat) (st : GM) : gmLoop [] i st = some st := rfl

theorem getMethod_shape (pre meth args : Str) (hpre : '"' ∉ pre) (hm : '"' ∉ meth) :
    getMethod (pre ++ '[' :: '"' :: (meth ++ '"' :: ',' :: (args ++ [']']))) =
      .ok (meth, args) := by
  set T := pre ++ '[' :: '"' :: (meth ++ '"' :: ',' :: (args ++ [']'])) with hT
  have hloop : gmLoop T 0 ⟨0, 0, 0, 0⟩ =
      some ⟨pre.length + 2, pre.length + 2 + meth.length, pre.length + 4 + meth.length, 2⟩ := by
    rw [hT, gmLoop_skip_lt2 pre hpre _ 0 ⟨0, 0, 0, 0⟩ (by norm_num)]
    rw [gmLoop_other '[' _ _ _ (by decide) (by decide)]
    rw [gmLoop_quote_zero]
    rw [gmLoop_skip_lt2 meth hm _ _ _ (by norm_num)]
    rw [gmLoop_quote_one]
    rw [gmLoop_comma_two]
    simp only [Option.some.injEq, GM.mk.injEq, and_true]
    omega
  have hlen : T.length = pre.length + meth.length + args.length + 5 := by
    rw [hT]
    simp [List.length_append]
    omega
  unfold getMethod
  simp only [hloop]
  rw [if_neg (by
    push_neg
    refine ⟨by omega, ?_⟩
    rw [hlen]
    omega)]
  have hfst : (T.drop (pre.length + 2)).take (pre.length + 2 + meth.length - (pre.length + 2)) =
      meth := by
    rw [show pre.length + 2 + meth.length - (pre.length + 2) = meth.length by omega]
    rw [show T = (pre ++ ['[', '"']) ++ (meth ++ '"' :: ',' :: (args ++ [']'])) by rw [hT]; simp]
    rw [List.drop_left' (by simp)]
    exact List.take_left' rfl
  have hsnd : (T.drop (pre.length + 4 + meth.length)).dropLast = args := by
    rw [show T = (pre ++ '[' :: '"' :: (meth ++ ['"', ','])) ++ (args ++ [']']) by
      rw [hT]; simp]
    rw [List.drop_left' (by simp [List.length_append]; omega)]
    exact List.dropLast_concat
  rw [hfst, hsnd]

theorem getMethod_noQuote (s : Str) (hq : '"' ∉ s) (hne : s ≠ []) :
    getMethod s = .ok ([], s.dropLast) := by
  have hloop : gmLoop s 0 ⟨0, 0, 0, 0⟩ = some ⟨0, 0, 0, 0⟩ := by
    have h := gmLoop_skip_lt2 s hq [] 0 ⟨0, 0, 0, 0⟩ (by norm_num)
    simpa using h
  unfold getMethod
  simp only [hloop]
  rw [if_neg (by
    push_neg
    refine ⟨by omega, ?_⟩
    have : s.length ≠ 0 := fun h => hne (List.length_eq_zero.1 h)
    omega)]
  simp

theorem getMethod_threeQuotes (a b c d : Str) (ha : '"' ∉ a) (hb : '"' ∉ b)
    (hc : '"' ∉ c) (hcm : ',' ∉ c) :
    getMethod (a ++ '"' :: (b ++ '"' :: (c ++ '"' :: d))) = .error .WrongPacket := by
  have hloop : gmLoop (a ++ '"' :: (b ++ '"' :: (c ++ '"' :: d))) 0 ⟨0, 0, 0, 0⟩ = none := by
    rw [gmLoop_skip_lt2 a ha _ 0 ⟨0, 0, 0, 0⟩ (by norm_num)]
    rw [gmLoop_quote_zero]
    rw [gmLoop_skip_lt2 b hb _ _ _ (by norm_num)]
    rw [gmLoop_quote_one]
    rw [gmLoop_skip_nc c hc hcm]
    rw [gmLoop_quote_two]
  unfold getMethod
  simp only [hloop]

theorem getMethod_noComma (a m t : Str) (ha : '"' ∉ a) (hm : '"' ∉ m)
    (ht : '"' ∉ t) (htc : ',' ∉ t) (hne : t ≠ []) :
    getMethod (a ++ '"' :: (m ++ '"' :: t)) = .ok (m, t.dropLast) := by
  set T := a ++ '"' :: (m ++ '"' :: t) with hT
  have hloop : gmLoop T 0 ⟨0, 0, 0, 0⟩ =
      some ⟨a.length + 1, a.length + 1 + m.length, a.length + 2 + m.length, 2⟩ := by
    rw [hT, gmLoop_skip_lt2 a ha _ 0 ⟨0, 0, 0, 0⟩ (by norm_num)]
    rw [gmLoop_quote_zero]
    rw [gmLoop_skip_lt2 m hm _ _ _ (by norm_num)]
    rw [gmLoop_quote_one]
    conv_lhs => rw [show t = t ++ [] by simp]
    rw [gmLoop_skip_nc t ht htc]
    rw [gmLoop_nil]
    simp only [Option.some.injEq, GM.mk.injEq, and_true]
    omega
  have hlen : T.length = a.length + m.length + t.length + 2 := by
    rw [hT]
    simp [List.length_append]
    omega
  unfold getMethod
  simp only [hloop]
  rw [if_neg (by
    push_neg
    refine ⟨by omega, ?_⟩
    rw [hlen]
    have : t.length ≠ 0 := fun h => hne (List.length_eq_zero.1 h)
    omega)]
  have hfst : (T.drop (a.length + 1)).take (a.length + 1 + m.length - (a.length + 1)) = m := by
    rw [show a.length + 1 + m.length - (a.length + 1) = m.length by omega]
    rw [show T = (a ++ ['"']) ++ (m ++ '"' :: t) by rw [hT]; simp]
    rw [List.drop_left' (by simp)]
    exact List.take_left' rfl
  have hsnd : (T.drop (a.length + 2 + m.length)).dropLast = t.dropLast := by
    rw [show T = (a ++ '"' :: (m ++ ['"'])) ++ t by rw [hT]; simp]
    rw [List.drop_left' (by simp [List.length_append]; omega)]
  rw [hfst, hsnd]

/-! ### Unfolding lemmas for `getMessageType` and `Decode` -/

theorem gmt_open (t : Str) : getMessageType ('0' :: t) = .ok (MessageTypeOpen, t) := rfl

theorem gmt_close (t : Str) : getMessageType ('1' :: t) = .ok (MessageTypeClose, t) := rfl

theorem gmt_ping (t : Str) : getMessageType ('2' :: t) = .ok (MessageTypePing, t) := rfl

theorem gmt_pong (t : Str) : getMessageType ('3' :: t) = .ok (MessageTypePong, t) := rfl

theorem gmt_empty (t : Str) : getMessageType ('4' :: '0' :: t) = .ok (MessageTypeEmpty, t) := rfl

theorem gmt_42 (t : Str) : getMessageType ('4' :: '2' :: t) = .ok (MessageTypeAckRequest, t) := rfl

theorem gmt_43 (t : Str) : getMessageType ('4' :: '3' :: t) = .ok (MessageTypeAckResponse, t) := rfl

theorem Decode_open (t : Str) :
    Decode ('0' :: t) =
      .ok ⟨MessageTypeOpen, (getNamespace t).1, 0, [], (getNamespace t).2, '0' :: t⟩ := by
  simp [Decode, gmt_open, MessageTypeOpen]

theorem Decode_close (t : Str) :
    Decode ('1' :: t) =
      .ok ⟨MessageTypeClose, (getNamespace t).1, 0, [], [], '1' :: t⟩ := by
  simp [Decode, gmt_close, MessageTypeClose, MessageTypeOpen]

theorem Decode_ping (t : Str) :
    Decode ('2' :: t) =
      .ok ⟨MessageTypePing, (getNamespace t).1, 0, [], [], '2' :: t⟩ := by
  simp [Decode, gmt_ping, MessageTypePing, MessageTypeOpen, MessageTypeClose]

theorem Decode_pong (t : Str) :
    Decode ('3' :: t) =
      .ok ⟨MessageTypePong, (getNamespace t).1, 0, [], [], '3' :: t⟩ := by
  simp [Decode, gmt_pong, MessageTypePong, MessageTypeOpen, MessageTypeClose, MessageTypePing]

theorem Decode_empty (t : Str) :
    Decode ('4' :: '0' :: t) =
      .ok ⟨MessageTypeEmpty, (getNamespace t).1, 0, [], [], '4' :: '0' :: t⟩ := by
  simp [Decode, gmt_empty, MessageTypeEmpty, MessageTypeOpen, MessageTypeClose, MessageTypePing,
    MessageTypePong]

theorem Decode_42_ack (t : Str) {a : Int} {r : Str}
    (hA : getAck (getNamespace t).2 = .ok (a, r)) :
    Decode ('4' :: '2' :: t) =
      match getMethod r with
      | .error e => .err e
      | .ok ma => .ok ⟨MessageTypeAckRequest, (getNamespace t).1, a, ma.1, ma.2, '4' :: '2' :: t⟩ := by
  cases hM : getMethod r with
  | ok ma =>
    simp [Decode, gmt_42, hA, hM, MessageTypeAckRequest, MessageTypeOpen, MessageTypeClose,
      MessageTypePing, MessageTypePong, MessageTypeEmpty, MessageTypeAckResponse]
  | error e =>
    simp [Decode, gmt_42, hA, hM, MessageTypeAckRequest, MessageTypeOpen, MessageTypeClose,
      MessageTypePing, MessageTypePong, MessageTypeEmpty, MessageTypeAckResponse]

theorem Decode_42_noack (t : Str) {e : Err}
    (hA : getAck (getNamespace t).2 = .error e) :
    Decode ('4' :: '2' :: t) =
      match getMethod t with
      | .error e2 => .err e2
      | .ok ma => .ok ⟨MessageTypeEmit, (getNamespace t).1, 0, ma.1, ma.2, '4' :: '2' :: t⟩ := by
  cases hM : getMethod t with
  | ok ma =>
    simp [Decode, gmt_42, hA, hM, MessageTypeAckRequest, MessageTypeOpen, MessageTypeClose,
      MessageTypePing, MessageTypePong, MessageTypeEmpty, MessageTypeAckResponse]
  | error e2 =>
    simp [Decode, gmt_42, hA, hM, MessageTypeAckRequest, MessageTypeOpen, MessageTypeClose,
      MessageTypePing, MessageTypePong, MessageTypeEmpty, MessageTypeAckResponse]

theorem Decode_43_ack (t : Str) {a : Int} {r : Str}
    (hA : getAck (getNamespace t).2 = .ok (a, r)) :
    Decode ('4' :: '3' :: t) =
      if 2 ≤ r.length then
        .ok ⟨MessageTypeAckResponse, (getNamespace t).1, a, [], (r.drop 1).dropLast, '4' :: '3' :: t⟩
      else .panicked := by
  by_cases hl : 2 ≤ r.length
  · simp [Decode, gmt_43, hA, hl, MessageTypeAckResponse, MessageTypeOpen, MessageTypeClose,
      MessageTypePing, MessageTypePong, MessageTypeEmpty]
  · simp [Decode, gmt_43, hA, hl, MessageTypeAckResponse, MessageTypeOpen, MessageTypeClose,
      MessageTypePing, MessageTypePong, MessageTypeEmpty]

theorem Decode_43_noack (t : Str) {e : Err}
    (hA : getAck (getNamespace t).2 = .error e) :
    Decode ('4' :: '3' :: t) = .err e := by
  simp [Decode, gmt_43, hA, MessageTypeAckResponse, MessageTypeOpen, MessageTypeClose,
    MessageTypePing, MessageTypePong, MessageTypeEmpty]

/-! ### Per-kind unfolding lemmas for `Encode` -/

/-- Namespace part of an encoded message: the namespace, followed by the
separator comma exactly when the namespace is non-empty. -/
def nsPart (ns : Str) : Str := if ns = [] then [] else ns ++ [',']

theorem Encode_ping (m : Message) (h : m.Type' = MessageTypePing) :
    Encode m = ('2' :: m.Namespace, none) := by
  unfold Encode
  rw [h]
  simp [typeToText, MessageTypePing, MessageTypeOpen, MessageTypeClose, MessageTypeEmpty]

theorem Encode_pong (m : Message) (h : m.Type' = MessageTypePong) :
    Encode m = ('3' :: m.Namespace, none) := by
  unfold Encode
  rw [h]
  simp [typeToText, MessageTypePong, MessageTypeOpen, MessageTypeClose, MessageTypePing,
    MessageTypeEmpty]

theorem Encode_empty (m : Message) (h : m.Type' = MessageTypeEmpty) :
    Encode m = ('4' :: '0' :: m.Namespace, none) := by
  unfold Encode
  rw [h]
  simp [typeToText, MessageTypeEmpty, MessageTypeOpen, MessageTypeClose, MessageTypePing,
    MessageTypePong]

theorem Encode_open (m : Message) (h : m.Type' = MessageTypeOpen) :
    Encode m = ('0' :: (nsPart m.Namespace ++ m.Args), none) := by
  unfold Encode
  rw [h]
  cases hns : m.Namespace with
  | nil =>
    simp [typeToText, nsPart, commaIf, MessageTypeOpen, MessageTypeClose, MessageTypePing,
      MessageTypePong, MessageTypeEmpty, MessageTypeAckRequest, MessageTypeAckResponse]
  | cons c rest =>
    simp [typeToText, nsPart, commaIf, MessageTypeOpen, MessageTypeClose, MessageTypePing,
      MessageTypePong, MessageTypeEmpty, MessageTypeAckRequest, MessageTypeAckResponse]

theorem Encode_close (m : Message) (h : m.Type' = MessageTypeClose) :
    Encode m = ('1' :: (nsPart m.Namespace ++ m.Args), none) := by
  unfold Encode
  rw [h]
  cases hns : m.Namespace with
  | nil =>
    simp [typeToText, nsPart, commaIf, MessageTypeOpen, MessageTypeClose, MessageTypePing,
      MessageTypePong, MessageTypeEmpty, MessageTypeAckRequest, MessageTypeAckResponse]
  | cons c rest =>
    simp [typeToText, nsPart, commaIf, MessageTypeOpen, MessageTypeClose, MessageTypePing,
      MessageTypePong, MessageTypeEmpty, MessageTypeAckRequest, MessageTypeAckResponse]

theorem Encode_emit (m : Message) (h : m.Type' = MessageTypeEmit) :
    Encode m =
      ('4' :: '2' :: (nsPart m.Namespace ++
        '[' :: '"' :: (m.Method ++ '"' :: ',' :: (m.Args ++ [']']))), none) := by
  unfold Encode
  rw [h]
  cases hns : m.Namespace with
  | nil =>
    simp [typeToText, nsPart, commaIf, jsonMarshalString, MessageTypeOpen, MessageTypeClose,
      MessageTypePing, MessageTypePong, MessageTypeEmpty, MessageTypeEmit, MessageTypeAckRequest,
      MessageTypeAckResponse]
  | cons c rest =>
    simp [typeToText, nsPart, commaIf, jsonMarshalString, MessageTypeOpen, MessageTypeClose,
      MessageTypePing, MessageTypePong, MessageTypeEmpty, MessageTypeEmit, MessageTypeAckRequest,
      MessageTypeAckResponse]

theorem Encode_ackreq (m : Message) (h : m.Type' = MessageTypeAckRequest) :
    Encode m =
      ('4' :: '2' :: (nsPart m.Namespace ++ (Itoa m.AckId ++
        '[' :: '"' :: (m.Method ++ '"' :: ',' :: (m.Args ++ [']'])))), none) := by
  unfold Encode
  rw [h]
  cases hns : m.Namespace with
  | nil =>
    simp [typeToText, nsPart, commaIf, jsonMarshalString, MessageTypeOpen, MessageTypeClose,
      MessageTypePing, MessageTypePong, MessageTypeEmpty, MessageTypeEmit, MessageTypeAckRequest,
      MessageTypeAckResponse]
  | cons c rest =>
    simp [typeToText, nsPart, commaIf, jsonMarshalString, MessageTypeOpen, MessageTypeClose,
      MessageTypePing, MessageTypePong, MessageTypeEmpty, MessageTypeEmit, MessageTypeAckRequest,
      MessageTypeAckResponse]

theorem Encode_ackresp (m : Message) (h : m.Type' = MessageTypeAckResponse) :
    Encode m =
      ('4' :: '3' :: (nsPart m.Namespace ++ (Itoa m.AckId ++ '[' :: (m.Args ++ [']']))), none) := by
  unfold Encode
  rw [h]
  cases hns : m.Namespace with
  | nil =>
    simp [typeToText, nsPart, commaIf, MessageTypeOpen, MessageTypeClose,
      MessageTypePing, MessageTypePong, MessageTypeEmpty, MessageTypeEmit, MessageTypeAckRequest,
      MessageTypeAckResponse]
  | cons c rest =>
    simp [typeToText, nsPart, commaIf, MessageTypeOpen, MessageTypeClose,
      MessageTypePing, MessageTypePong, MessageTypeEmpty, MessageTypeEmit, MessageTypeAckRequest,
      MessageTypeAckResponse]

theorem Encode_bad (m : Message)
    (h0 : m.Type' ≠ MessageTypeOpen) (h1 : m.Type' ≠ MessageTypeClose)
    (h2 : m.Type' ≠ MessageTypePing) (h3 : m.Type' ≠ MessageTypePong)
    (h4 : m.Type' ≠ MessageTypeEmpty) (h5 : m.Type' ≠ MessageTypeEmit)
    (h6 : m.Type' ≠ MessageTypeAckRequest) (h7 : m.Type' ≠ MessageTypeAckResponse) :
    Encode m = ([], some .WrongMessageType) := by
  have ht : typeToText m.Type' = .error .WrongMessageType := by
    unfold typeToText
    rw [if_neg h0, if_neg h1, if_neg h2, if_neg h3, if_neg h4,
      if_neg (by push_neg; exact ⟨h5, h6⟩), if_neg h7]
  unfold Encode
  rw [ht]

/-! ### Well-formed messages and the decode-encode round trip -/

/-- Namespaces as the spec describes them: absent, or starting with `/`
and free of the comma that terminates them on the wire (and of quotes,
which would confuse the method scanner on the Emit fallback path). -/
def nsOK (ns : Str) : Prop :=
  ns = [] ∨ (ns.head? = some '/' ∧ ',' ∉ ns ∧ '"' ∉ ns)

/-- A well-formed message whose `Args` already matches the wire shape its
kind expects: fields irrelevant to the kind are unset, method names are
JSON-verbatim, and `Open` arguments do not masquerade as a namespace. -/
def WF (m : Message) : Prop :=
  nsOK m.Namespace ∧
  ((m.Type' = MessageTypeOpen ∧ m.AckId = 0 ∧ m.Method = [] ∧
      (m.Namespace = [] → m.Args.head? ≠ some '/')) ∨
   (m.Type' = MessageTypeClose ∧ m.AckId = 0 ∧ m.Method = [] ∧ m.Args = []) ∨
   (m.Type' = MessageTypePing ∧ m.AckId = 0 ∧ m.Method = [] ∧ m.Args = []) ∨
   (m.Type' = MessageTypePong ∧ m.AckId = 0 ∧ m.Method = [] ∧ m.Args = []) ∨
   (m.Type' = MessageTypeEmpty ∧ m.AckId = 0 ∧ m.Method = [] ∧ m.Args = []) ∨
   (m.Type' = MessageTypeEmit ∧ m.AckId = 0 ∧ m.Method.all jsonSafe = true) ∨
   (m.Type' = MessageTypeAckRequest ∧ m.Method.all jsonSafe = true) ∨
   (m.Type' = MessageTypeAckResponse ∧ m.Method = []))

theorem jsonSafe_no_quote {s : Str} (h : s.all jsonSafe = true) : '"' ∉ s := by
  intro hm
  have hq := List.all_eq_true.1 h _ hm
  exact absurd hq (by decide)

theorem nsPart_no_quote {ns : Str} (hns : nsOK ns) : '"' ∉ nsPart ns := by
  rcases hns with h | ⟨h1, h2, h3⟩
  · subst h
    simp [nsPart]
  · have hne : ns ≠ [] := by
      intro hn
      rw [hn] at h1
      exact Option.noConfusion h1
    rw [nsPart, if_neg hne]
    intro hm
    rcases List.mem_append.1 hm with h | h
    · exact h3 h
    · simp at h

theorem getNamespace_nsPart (ns : Str) (hns : nsOK ns) (r : Str)
    (hr : ns = [] → r.head? ≠ some '/') :
    getNamespace (nsPart ns ++ r) = (ns, r) := by
  rcases hns with h | ⟨h1, h2, h3⟩
  · subst h
    rw [nsPart, if_pos rfl, List.nil_append]
    exact getNamespace_no_slash (hr rfl)
  · have hne : ns ≠ [] := by
      intro hn
      rw [hn] at h1
      exact Option.noConfusion h1
    rw [nsPart, if_neg hne]
    rw [show (ns ++ [',']) ++ r = ns ++ ',' :: r by simp]
    exact getNamespace_sep r h1 h2

theorem getNamespace_bare (ns : Str) (hns : nsOK ns) : getNamespace ns = (ns, []) := by
  rcases hns with h | ⟨h1, h2, h3⟩
  · subst h
    rfl
  · exact getNamespace_no_comma h1 h2

theorem decode_encode_wf (m : Message) (h : WF m) :
    ∃ md : Message, Decode (Encode m).1 = .ok md ∧ md.Type' = m.Type' ∧
      md.Namespace = m.Namespace ∧ md.AckId = m.AckId ∧ md.Method = m.Method ∧
      md.Args = m.Args := by
  obtain ⟨hns, hk⟩ := h
  rcases hk with ⟨hT, hA0, hM0, hArg⟩ | ⟨hT, hA0, hM0, hArgs⟩ | ⟨hT, hA0, hM0, hArgs⟩ |
    ⟨hT, hA0, hM0, hArgs⟩ | ⟨hT, hA0, hM0, hArgs⟩ | ⟨hT, hA0, hMq⟩ | ⟨hT, hMq⟩ | ⟨hT, hM0⟩
  · -- Open
    simp only [Encode_open m hT]
    rw [Decode_open]
    rw [getNamespace_nsPart m.Namespace hns m.Args hArg]
    exact ⟨_, rfl, hT.symm, rfl, hA0.symm, hM0.symm, rfl⟩
  · -- Close
    simp only [Encode_close m hT, hArgs]
    rw [Decode_close]
    rw [getNamespace_nsPart m.Namespace hns [] (fun _ => by simp)]
    exact ⟨_, rfl, hT.symm, rfl, hA0.symm, hM0.symm, rfl⟩
  · -- Ping
    simp only [Encode_ping m hT]
    rw [Decode_ping]
    rw [getNamespace_bare m.Namespace hns]
    exact ⟨_, rfl, hT.symm, rfl, hA0.symm, hM0.symm, hArgs.symm⟩
  · -- Pong
    simp only [Encode_pong m hT]
    rw [Decode_pong]
    rw [getNamespace_bare m.Namespace hns]
    exact ⟨_, rfl, hT.symm, rfl, hA0.symm, hM0.symm, hArgs.symm⟩
  · -- Empty
    simp only [Encode_empty m hT]
    rw [Decode_empty]
    rw [getNamespace_bare m.Namespace hns]
    exact ⟨_, rfl, hT.symm, rfl, hA0.symm, hM0.symm, hArgs.symm⟩
  · -- Emit
    simp only [Encode_emit m hT]
    have hgn : getNamespace (nsPart m.Namespace ++
        '[' :: '"' :: (m.Method ++ '"' :: ',' :: (m.Args ++ [']']))) =
        (m.Namespace, '[' :: '"' :: (m.Method ++ '"' :: ',' :: (m.Args ++ [']']))) :=
      getNamespace_nsPart _ hns _ (fun _ => by simp)
    have hack : getAck (getNamespace (nsPart m.Namespace ++
        '[' :: '"' :: (m.Method ++ '"' :: ',' :: (m.Args ++ [']'])))).2 =
        .error .AtoiError := by
      rw [hgn]
      exact getAck_lbrack _
    rw [Decode_42_noack _ hack]
    have hmeth := getMethod_shape (nsPart m.Namespace) m.Method m.Args
      (nsPart_no_quote hns) (jsonSafe_no_quote hMq)
    simp only [hmeth]
    rw [hgn]
    exact ⟨_, rfl, hT.symm, rfl, hA0.symm, rfl, rfl⟩
  · -- AckRequest
    simp only [Encode_ackreq m hT]
    have hgn : getNamespace (nsPart m.Namespace ++ (Itoa m.AckId ++
        '[' :: ('"' :: (m.Method ++ '"' :: ',' :: (m.Args ++ [']']))))) =
        (m.Namespace, Itoa m.AckId ++
          '[' :: ('"' :: (m.Method ++ '"' :: ',' :: (m.Args ++ [']'])))) :=
      getNamespace_nsPart _ hns _ (fun _ => Itoa_head_not_slash _ _)
    have hack : getAck (getNamespace (nsPart m.Namespace ++ (Itoa m.AckId ++
        '[' :: ('"' :: (m.Method ++ '"' :: ',' :: (m.Args ++ [']'])))))).2 =
        .ok (m.AckId, '[' :: ('"' :: (m.Method ++ '"' :: ',' :: (m.Args ++ [']'])))) := by
      rw [hgn]
      exact getAck_itoa _ _
    rw [Decode_42_ack _ hack]
    have hmeth : getMethod ('[' :: ('"' :: (m.Method ++ '"' :: ',' :: (m.Args ++ [']'])))) =
        .ok (m.Method, m.Args) := by
      have hs := getMethod_shape [] m.Method m.Args (by simp) (jsonSafe_no_quote hMq)
      simpa using hs
    simp only [hmeth]
    rw [hgn]
    exact ⟨_, rfl, hT.symm, rfl, rfl, rfl, rfl⟩
  · -- AckResponse
    simp only [Encode_ackresp m hT]
    have hgn : getNamespace (nsPart m.Namespace ++
        (Itoa m.AckId ++ '[' :: (m.Args ++ [']']))) =
        (m.Namespace, Itoa m.AckId ++ '[' :: (m.Args ++ [']'])) :=
      getNamespace_nsPart _ hns _ (fun _ => Itoa_head_not_slash _ _)
    have hack : getAck (getNamespace (nsPart m.Namespace ++
        (Itoa m.AckId ++ '[' :: (m.Args ++ [']'])))).2 =
        .ok (m.AckId, '[' :: (m.Args ++ [']'])) := by
      rw [hgn]
      exact getAck_itoa _ _
    rw [Decode_43_ack _ hack]
    rw [if_pos (by simp)]
    rw [show ((('[' :: (m.Args ++ [']'])).drop 1).dropLast) = m.Args by
      simp [List.dropLast_concat]]
    rw [hgn]
    exact ⟨_, rfl, hT.symm, rfl, rfl, hM0.symm, rfl⟩

/-! ### Classifiability of the wire prefix -/

/-- The spec's kind/prefix table, read off the spec's own words: a one- or
two-character prefix matches an entry exactly when this holds (the
`4`-class needs a second character). -/
def specClassifiable (data : Str) : Prop :=
  match data with
  | [] => False
  | [c] => c = '0' ∨ c = '1' ∨ c = '2' ∨ c = '3'
  | c :: c2 :: _ =>
    c = '0' ∨ c = '1' ∨ c = '2' ∨ c = '3' ∨ (c = '4' ∧ (c2 = '0' ∨ c2 = '2' ∨ c2 = '3'))

theorem gmt_err_iff (data : Str) :
    getMessageType data = .error .WrongMessageType ↔ ¬ specClassifiable data := by
  match data with
  | [] => simp [getMessageType, specClassifiable]
  | [c] =>
    simp only [getMessageType, specClassifiable]
    split_ifs <;> simp_all
  | c :: c2 :: rest =>
    simp only [getMessageType, specClassifiable]
    split_ifs <;> simp_all

theorem gmt_error_wmt {data : Str} {e : Err} (h : getMessageType data = .error e) :
    e = .WrongMessageType := by
  match data with
  | [] =>
    injection h with h'
    exact h'.symm
  | [c] =>
    simp only [getMessageType] at h
    split_ifs at h
    all_goals (injection h with h'; exact h'.symm)
  | c :: c2 :: rest =>
    simp only [getMessageType] at h
    split_ifs at h
    all_goals (injection h with h'; exact h'.symm)

theorem gmt_ok_cases {data : Str} {ty : Int} {r : Str}
    (h : getMessageType data = .ok (ty, r)) :
    (data = '0' :: r ∧ ty = MessageTypeOpen) ∨ (data = '1' :: r ∧ ty = MessageTypeClose) ∨
    (data = '2' :: r ∧ ty = MessageTypePing) ∨ (data = '3' :: r ∧ ty = MessageTypePong) ∨
    (data = '4' :: '0' :: r ∧ ty = MessageTypeEmpty) ∨
    (data = '4' :: '2' :: r ∧ ty = MessageTypeAckRequest) ∨
    (data = '4' :: '3' :: r ∧ ty = MessageTypeAckResponse) := by
  match data with
  | [] => exact Except.noConfusion h
  | [c] =>
    simp only [getMessageType] at h
    split_ifs at h with h0 h1 h2 h3
    · simp only [Except.ok.injEq, Prod.mk.injEq] at h
      subst h0
      exact Or.inl ⟨by rw [← h.2], h.1.symm⟩
    · simp only [Except.ok.injEq, Prod.mk.injEq] at h
      subst h1
      exact Or.inr (Or.inl ⟨by rw [← h.2], h.1.symm⟩)
    · simp only [Except.ok.injEq, Prod.mk.injEq] at h
      subst h2
      exact Or.inr (Or.inr (Or.inl ⟨by rw [← h.2], h.1.symm⟩))
    · simp only [Except.ok.injEq, Prod.mk.injEq] at h
      subst h3
      exact Or.inr (Or.inr (Or.inr (Or.inl ⟨by rw [← h.2], h.1.symm⟩)))
  | c :: c2 :: rest =>
    simp only [getMessageType] at h
    split_ifs at h with h0 h1 h2 h3 h4 g0 g1 g2
    · simp only [Except.ok.injEq, Prod.mk.injEq] at h
      subst h0
      exact Or.inl ⟨by rw [h.2], h.1.symm⟩
    · simp only [Except.ok.injEq, Prod.mk.injEq] at h
      subst h1
      exact Or.inr (Or.inl ⟨by rw [h.2], h.1.symm⟩)
    · simp only [Except.ok.injEq, Prod.mk.injEq] at h
      subst h2
      exact Or.inr (Or.inr (Or.inl ⟨by rw [h.2], h.1.symm⟩))
    · simp only [Except.ok.injEq, Prod.mk.injEq] at h
      subst h3
      exact Or.inr (Or.inr (Or.inr (Or.inl ⟨by rw [h.2], h.1.symm⟩)))
    · simp only [Except.ok.injEq, Prod.mk.injEq] at h
      subst h4
      subst g0
      exact Or.inr (Or.inr (Or.inr (Or.inr (Or.inl ⟨by rw [h.2], h.1.symm⟩))))
    · simp only [Except.ok.injEq, Prod.mk.injEq] at h
      subst h4
      subst g1
      exact Or.inr (Or.inr (Or.inr (Or.inr (Or.inr (Or.inl ⟨by rw [h.2], h.1.symm⟩)))))
    · simp only [Except.ok.injEq, Prod.mk.injEq] at h
      subst h4
      subst g2
      exact Or.inr (Or.inr (Or.inr (Or.inr (Or.inr (Or.inr ⟨by rw [h.2], h.1.symm⟩)))))

theorem decode_ok_of_classified {data : Str}
    (hc : getMessageType data ≠ .error .WrongMessageType) :
    Decode data ≠ .err .WrongMessageType := by
  intro h
  cases hgm : getMessageType data with
  | error e =>
    exact hc (gmt_error_wmt hgm ▸ hgm)
  | ok tr =>
    obtain ⟨ty, r⟩ := tr
    rcases gmt_ok_cases hgm with ⟨hd, hty⟩ | ⟨hd, hty⟩ | ⟨hd, hty⟩ | ⟨hd, hty⟩ | ⟨hd, hty⟩ |
      ⟨hd, hty⟩ | ⟨hd, hty⟩
    · subst hd
      rw [Decode_open] at h
      exact DecodeResult.noConfusion h
    · subst hd
      rw [Decode_close] at h
      exact DecodeResult.noConfusion h
    · subst hd
      rw [Decode_ping] at h
      exact DecodeResult.noConfusion h
    · subst hd
      rw [Decode_pong] at h
      exact DecodeResult.noConfusion h
    · subst hd
      rw [Decode_empty] at h
      exact DecodeResult.noConfusion h
    · subst hd
      cases hA : getAck (getNamespace r).2 with
      | ok ar =>
        obtain ⟨a, rr⟩ := ar
        rw [Decode_42_ack r hA] at h
        cases hM : getMethod rr with
        | ok ma =>
          rw [hM] at h
          exact DecodeResult.noConfusion h
        | error e2 =>
          rw [hM] at h
          have he2 := getMethod_error_eq hM
          injection h with h'
          rw [he2] at h'
          exact Err.noConfusion h'
      | error e =>
        rw [Decode_42_noack r hA] at h
        cases hM : getMethod r with
        | ok ma =>
          rw [hM] at h
          exact DecodeResult.noConfusion h
        | error e2 =>
          rw [hM] at h
          have he2 := getMethod_error_eq hM
          injection h with h'
          rw [he2] at h'
          exact Err.noConfusion h'
    · subst hd
      cases hA : getAck (getNamespace r).2 with
      | ok ar =>
        obtain ⟨a, rr⟩ := ar
        rw [Decode_43_ack r hA] at h
        split_ifs at h
      | error e =>
        rw [Decode_43_noack r hA] at h
        injection h with h'
        exact getAck_error_ne_wmt hA h'

/-! ### Claim theorems -/

/-- C1 (code bug): the claim says `Decode` either returns a message or
fails with one of the three errors, never aborting at runtime; but on the
input `431[` the AckResponse branch slices `rest[1:len(rest)-1]` with
`rest = "["`, an out-of-range slice, and the Go code panics. -/
theorem C1_decode_431_panics : Decode ("431[".toList) = .panicked := by decide

/-- C2: for every well-formed message whose `Args` already matches the
wire shape its kind expects, decoding the encoding reproduces `Kind`,
`Namespace`, `AckId`, `Method` and `Args`. -/
theorem C2_decode_encode_roundtrip (m : Message) (h : WF m) :
    ∃ md : Message, Decode (Encode m).1 = .ok md ∧ md.Type' = m.Type' ∧
      md.Namespace = m.Namespace ∧ md.AckId = m.AckId ∧ md.Method = m.Method ∧
      md.Args = m.Args :=
  decode_encode_wf m h

/-- Sample Emit message used by the round-trip witness. -/
def sampleEmit : Message :=
  ⟨MessageTypeEmit, "/chat".toList, 0, "foo".toList, "[1,2]".toList, []⟩

/-- Witness for C2 at a concrete Emit message with a namespace. -/
theorem C2_decode_encode_roundtrip_witness :
    WF sampleEmit ∧ ∃ md : Message, Decode (Encode sampleEmit).1 = .ok md ∧
      md.Type' = sampleEmit.Type' ∧ md.Namespace = sampleEmit.Namespace ∧
      md.AckId = sampleEmit.AckId ∧ md.Method = sampleEmit.Method ∧
      md.Args = sampleEmit.Args := by
  have hwf : WF sampleEmit := by
    unfold WF nsOK
    decide
  exact ⟨hwf, C2_decode_encode_roundtrip sampleEmit hwf⟩

/-- C3 counterexample: a body with no double-quote characters, and a body
whose closing quote is not followed by a comma, both decode successfully
instead of failing with `WrongPacket`. -/
theorem C3_counterexample :
    Decode ("42[abc]".toList) =
      .ok ⟨MessageTypeEmit, [], 0, [], "[abc".toList, "42[abc]".toList⟩ ∧
    Decode ("42[\"foo\"x]".toList) =
      .ok ⟨MessageTypeEmit, [], 0, "foo".toList, "x".toList, "42[\"foo\"x]".toList⟩ ∧
    Decode ("42[abc]".toList) ≠ .err .WrongPacket ∧
    Decode ("42[\"foo\"x]".toList) ≠ .err .WrongPacket := by decide

/-- C3 (amended): more than two quote characters before the separating
comma do fail with `WrongPacket`; but a nonempty body with no quote
characters succeeds with an empty method and the body minus its final
character as args, and a missing comma after the closing quote also
succeeds whenever any text follows the closing quote. -/
theorem C3_amended_getMethod :
    (∀ a b c d : Str, '"' ∉ a → '"' ∉ b → '"' ∉ c → ',' ∉ c →
      getMethod (a ++ '"' :: (b ++ '"' :: (c ++ '"' :: d))) = .error .WrongPacket) ∧
    (∀ s : Str, '"' ∉ s → s ≠ [] → getMethod s = .ok ([], s.dropLast)) ∧
    (∀ a m t : Str, '"' ∉ a → '"' ∉ m → '"' ∉ t → ',' ∉ t → t ≠ [] →
      getMethod (a ++ '"' :: (m ++ '"' :: t)) = .ok (m, t.dropLast)) :=
  ⟨getMethod_threeQuotes, getMethod_noQuote, getMethod_noComma⟩

/-- Witness for the amended C3 at concrete bodies. -/
theorem C3_amended_getMethod_witness :
    getMethod ("[".toList ++ '"' :: ("fo".toList ++ '"' :: ("x".toList ++ '"' :: "]".toList))) =
      .error .WrongPacket ∧
    getMethod ("[abc]".toList) = .ok ([], "[abc]".toList.dropLast) ∧
    getMethod ("[".toList ++ '"' :: ("foo".toList ++ '"' :: "x]".toList)) =
      .ok ("foo".toList, "x]".toList.dropLast) :=
  ⟨C3_amended_getMethod.1 "[".toList "fo".toList "x".toList "]".toList
      (by decide) (by decide) (by decide) (by decide),
   C3_amended_getMethod.2.1 "[abc]".toList (by decide) (by decide),
   C3_amended_getMethod.2.2 "[".toList "foo".toList "x]".toList
      (by decide) (by decide) (by decide) (by decide) (by decide)⟩

/-- C4 counterexample: the ack-id position may hold a negative number;
`Decode "43-5[x]"` succeeds with `AckId = -5` instead of rejecting it. -/
theorem C4_counterexample :
    Decode ("43-5[x]".toList) =
      .ok ⟨MessageTypeAckResponse, [], -5, [], "x".toList, "43-5[x]".toList⟩ ∧
    (-5 : Int) < 0 := by decide

/-- C4 (amended): the substring before the first `[` must parse with
`Atoi`, which accepts an optionally signed decimal integer, so negative
ack ids are accepted; when `Atoi` fails, `getAck` fails with that error. -/
theorem C4_amended_getAck :
    (∀ (a : Int) (x : Str), getAck (Itoa a ++ '[' :: x) = .ok (a, '[' :: x)) ∧
    (∀ (text : Str) (pos : Nat) (e : Err), indexByte text '[' = some pos →
      Atoi (text.take pos) = .error e → getAck text = .error e) := by
  refine ⟨getAck_itoa, ?_⟩
  intro text pos e hidx hA
  have hne : text.isEmpty = false := by
    cases text
    · simp [indexByte] at hidx
    · rfl
  unfold getAck
  rw [hne]
  simp only [Bool.false_eq_true, if_false, hidx, hA]

/-- Witness for the amended C4: a negative ack id accepted, and an
`Atoi` failure surfaced. -/
theorem C4_amended_getAck_witness :
    getAck (Itoa (-7) ++ '[' :: "x]".toList) = .ok (-7, '[' :: "x]".toList) ∧
    getAck ("zz[".toList) = .error .AtoiError :=
  ⟨C4_amended_getAck.1 (-7) "x]".toList,
   C4_amended_getAck.2 "zz[".toList 2 .AtoiError (by decide) rfl⟩

/-- C5: on the shared `42` class, the message is an AckRequest exactly
when the ack id parses after namespace stripping; on failure it is
re-classified as Emit and the body is parsed from the original input with
its first two characters dropped, with no fresh namespace stripping (the
namespace text is inside the text handed to `getMethod`). -/
theorem C5_shared42_classification (t : Str) :
    (∀ (a : Int) (r : Str), getAck (getNamespace t).2 = .ok (a, r) →
      Decode ('4' :: '2' :: t) =
        match getMethod r with
        | .error e => .err e
        | .ok ma =>
          .ok ⟨MessageTypeAckRequest, (getNamespace t).1, a, ma.1, ma.2, '4' :: '2' :: t⟩) ∧
    (∀ e : Err, getAck (getNamespace t).2 = .error e →
      Decode ('4' :: '2' :: t) =
        match getMethod t with
        | .error e2 => .err e2
        | .ok ma =>
          .ok ⟨MessageTypeEmit, (getNamespace t).1, 0, ma.1, ma.2, '4' :: '2' :: t⟩) :=
  ⟨fun _ _ hA => Decode_42_ack t hA, fun _ hA => Decode_42_noack t hA⟩

/-- Witness for C5: one input with an ack id, one with a namespace and no
ack id (the fallback path). -/
theorem C5_shared42_classification_witness :
    (Decode ('4' :: '2' :: "7[\"m\",x]".toList) =
      match getMethod ("[\"m\",x]".toList) with
      | .error e => .err e
      | .ok ma =>
        .ok ⟨MessageTypeAckRequest, (getNamespace ("7[\"m\",x]".toList)).1, 7, ma.1, ma.2,
          '4' :: '2' :: "7[\"m\",x]".toList⟩) ∧
    (Decode ('4' :: '2' :: "/n,[\"m\",x]".toList) =
      match getMethod ("/n,[\"m\",x]".toList) with
      | .error e2 => .err e2
      | .ok ma =>
        .ok ⟨MessageTypeEmit, (getNamespace ("/n,[\"m\",x]".toList)).1, 0, ma.1, ma.2,
          '4' :: '2' :: "/n,[\"m\",x]".toList⟩) :=
  ⟨(C5_shared42_classification ("7[\"m\",x]".toList)).1 7 ("[\"m\",x]".toList) rfl,
   (C5_shared42_classification ("/n,[\"m\",x]".toList)).2 .AtoiError rfl⟩

/-- C6: for AckResponse inputs a parseable ack id is mandatory
(`43["bar"]` fails), and on success `Args` is the remaining text with its
first and last characters (the outermost brackets) removed, so
`431["bar"]` yields AckId 1 and Args `"bar"` (quotes included). -/
theorem C6_ackresponse_decode :
    Decode ("43[\"bar\"]".toList) = .err .AtoiError ∧
    Decode ("431[\"bar\"]".toList) =
      .ok ⟨MessageTypeAckResponse, [], 1, [], "\"bar\"".toList, "431[\"bar\"]".toList⟩ ∧
    (∀ (t : Str) (a : Int) (r : Str), getAck (getNamespace t).2 = .ok (a, r) → 2 ≤ r.length →
      Decode ('4' :: '3' :: t) =
        .ok ⟨MessageTypeAckResponse, (getNamespace t).1, a, [], (r.drop 1).dropLast,
          '4' :: '3' :: t⟩) ∧
    (∀ (t : Str) (e : Err), getAck (getNamespace t).2 = .error e →
      Decode ('4' :: '3' :: t) = .err e) := by
  refine ⟨by decide, by decide, ?_, fun t e hA => Decode_43_noack t hA⟩
  intro t a r hA hl
  rw [Decode_43_ack t hA, if_pos hl]

/-- Witness for C6 at concrete AckResponse inputs. -/
theorem C6_ackresponse_decode_witness :
    Decode ('4' :: '3' :: "2[9]".toList) =
      .ok ⟨MessageTypeAckResponse, (getNamespace ("2[9]".toList)).1, 2, [],
        (("[9]".toList).drop 1).dropLast, '4' :: '3' :: "2[9]".toList⟩ ∧
    Decode ('4' :: '3' :: "[9]".toList) = .err .AtoiError :=
  ⟨C6_ackresponse_decode.2.2.1 ("2[9]".toList) 2 ("[9]".toList) rfl (by decide),
   C6_ackresponse_decode.2.2.2 ("[9]".toList) .AtoiError rfl⟩

/-- C7 counterexample: encoding a Close message with a namespace and empty
args yields `1/chat,` with a trailing comma, not `1/chat`. -/
theorem C7_counterexample :
    Encode ⟨MessageTypeClose, "/chat".toList, 0, [], [], []⟩ = ("1/chat,".toList, none) ∧
    "1/chat,".toList ≠ "1/chat".toList := by decide

/-- C7 (amended): the namespace is written literally with its leading
slash; for Open and Close a comma follows a non-empty namespace
unconditionally (the args field follows even when empty), args are
appended verbatim with no brackets; Ping, Pong and Empty append nothing
after the namespace. -/
theorem C7_amended_encode (m : Message) :
    (m.Type' = MessageTypeClose → Encode m = ('1' :: (nsPart m.Namespace ++ m.Args), none)) ∧
    (m.Type' = MessageTypeOpen → Encode m = ('0' :: (nsPart m.Namespace ++ m.Args), none)) ∧
    (m.Type' = MessageTypePing → Encode m = ('2' :: m.Namespace, none)) ∧
    (m.Type' = MessageTypePong → Encode m = ('3' :: m.Namespace, none)) ∧
    (m.Type' = MessageTypeEmpty → Encode m = ('4' :: '0' :: m.Namespace, none)) :=
  ⟨Encode_close m, Encode_open m, Encode_ping m, Encode_pong m, Encode_empty m⟩

/-- Witness for the amended C7: Close with a namespace and empty args
carries the trailing comma inside `nsPart`. -/
theorem C7_amended_encode_witness :
    Encode ⟨MessageTypeClose, "/c".toList, 0, [], [], []⟩ =
      ('1' :: (nsPart ("/c".toList) ++ ([] : Str)), none) :=
  (C7_amended_encode ⟨MessageTypeClose, "/c".toList, 0, [], [], []⟩).1 rfl

/-- C8: encoding a message whose kind is none of the eight recognized
kinds fails with `WrongMessageType` and returns the empty string. -/
theorem C8_encode_unknown_kind (m : Message)
    (h : m.Type' ∉ ([MessageTypeOpen, MessageTypeClose, MessageTypePing, MessageTypePong,
      MessageTypeEmpty, MessageTypeEmit, MessageTypeAckRequest,
      MessageTypeAckResponse] : List Int)) :
    Encode m = ([], some .WrongMessageType) := by
  simp only [List.mem_cons, List.not_mem_nil, or_false, not_or] at h
  obtain ⟨h0, h1, h2, h3, h4, h5, h6, h7⟩ := h
  exact Encode_bad m h0 h1 h2 h3 h4 h5 h6 h7

/-- Witness for C8 at kind 99. -/
theorem C8_encode_unknown_kind_witness :
    Encode ⟨99, "/x".toList, 5, "m".toList, "a".toList, []⟩ =
      ([], some .WrongMessageType) :=
  C8_encode_unknown_kind ⟨99, "/x".toList, 5, "m".toList, "a".toList, []⟩ (by decide)

/-- C9: `Decode` fails with `WrongMessageType` exactly when the one- or
two-character prefix matches no entry of the kind table; in particular the
empty string and the single character `4` fail this way. -/
theorem C9_wrong_message_type_iff :
    Decode [] = .err .WrongMessageType ∧ Decode ['4'] = .err .WrongMessageType ∧
    ∀ data : Str, Decode data = .err .WrongMessageType ↔ ¬ specClassifiable data := by
  refine ⟨by decide, by decide, fun data => ⟨?_, ?_⟩⟩
  · intro h
    rw [← gmt_err_iff]
    by_contra hne
    exact decode_ok_of_classified hne h
  · intro h
    have hgm := (gmt_err_iff data).2 h
    unfold Decode
    rw [hgm]

/-- C10: the terminal kinds Close, Ping, Pong and Empty always decode
successfully with only kind and namespace set, silently discarding any
text after the optional namespace (for example `2xyz`). -/
theorem C10_terminal_kinds :
    (∀ t : Str, Decode ('1' :: t) =
      .ok ⟨MessageTypeClose, (getNamespace t).1, 0, [], [], '1' :: t⟩) ∧
    (∀ t : Str, Decode ('2' :: t) =
      .ok ⟨MessageTypePing, (getNamespace t).1, 0, [], [], '2' :: t⟩) ∧
    (∀ t : Str, Decode ('3' :: t) =
      .ok ⟨MessageTypePong, (getNamespace t).1, 0, [], [], '3' :: t⟩) ∧
    (∀ t : Str, Decode ('4' :: '0' :: t) =
      .ok ⟨MessageTypeEmpty, (getNamespace t).1, 0, [], [], '4' :: '0' :: t⟩) ∧
    Decode ("2xyz".toList) = .ok ⟨MessageTypePing, [], 0, [], [], "2xyz".toList⟩ :=
  ⟨Decode_close, Decode_ping, Decode_pong, Decode_empty, by decide⟩

end Protocol
